import Mathlib

/-!
Verification development for the AppJail Director project reconciler.

Shallow embedding of the Python sources under `src/director/`:
`keys.py` (file-per-key store), `parser.py` (spec validation),
`project.py` (project state, diffing, locking), `jail.py` (external tool
driver), and the `up`/`describe` commands in `__init__.py`.

Modelling conventions:
- YAML documents are modelled by the inductive `YValue`; mapping keys are
  modelled as strings (the parser coerces scalar keys with `str()` via
  `_fix_non_str_keys`, so string keys model the post-coercion document).
- The filesystem behind a key store is modelled as an association list
  from key paths to string contents.
- File modification times (Python floats) are modelled as rationals:
  every claim about them is an order comparison.
- External-tool invocations are modelled by oracle functions giving each
  call result, and by traces of emitted operations.
-/

namespace Director

/-! ### YAML values (parsed documents)

Model of the raw value a YAML document parses to in `parser.py`.
-/

inductive YValue where
  | ynull : YValue
  | ystr : String → YValue
  | yint : Int → YValue
  | ybool : Bool → YValue
  | ylist : List YValue → YValue
  | ymap : List (String × YValue) → YValue
deriving Repr

mutual

/-- Python structural equality (`==` / `!=`) on parsed YAML values, as the
diffing code in `project.py` uses it on sub-documents.  Mapping equality
ignores key order (Python `dict.__eq__`); sequence order is significant.
Parsed mappings have unique keys, under which the size-and-subset test
below coincides with Python dictionary equality. -/
def ybeq : YValue → YValue → Bool
  | .ynull, .ynull => true
  | .ystr a, .ystr b => a == b
  | .yint a, .yint b => a == b
  | .ybool a, .ybool b => a == b
  | .ylist as, .ylist bs => ylistbeq as bs
  | .ymap as, .ymap bs => as.length == bs.length && ymapsub as bs
  | _, _ => false
termination_by a b => sizeOf a + sizeOf b

/-- Pointwise `ybeq` on sequences: order of sequences is significant. -/
def ylistbeq : List YValue → List YValue → Bool
  | [], [] => true
  | a :: as, b :: bs => ybeq a b && ylistbeq as bs
  | _, _ => false
termination_by as bs => sizeOf as + sizeOf bs

/-- Every pair of the first mapping is present (up to `ybeq`) in the second. -/
def ymapsub : List (String × YValue) → List (String × YValue) → Bool
  | [], _ => true
  | (k, v) :: rest, bs => ymaplook k v bs && ymapsub rest bs
termination_by as bs => sizeOf as + sizeOf bs

/-- Membership of one key-value pair in a mapping, values compared by `ybeq`. -/
def ymaplook (k : String) (v : YValue) : List (String × YValue) → Bool
  | [] => false
  | (k2, w) :: rest => if k == k2 then ybeq v w else ymaplook k v rest
termination_by bs => sizeOf v + sizeOf bs

end

namespace YValue

/-- Python `str()` coercion used by `_fix_non_str_list` and friends.
Only scalar coercions are exercised by the claims; container reprs are
abbreviated (no claim depends on their exact string form). -/
def ytostr : YValue → String
  | .ystr s => s
  | .yint n => toString n
  | .ybool b => cond b "True" "False"
  | .ynull => "None"
  | .ylist _ => "<list>"
  | .ymap _ => "<map>"

end YValue

/-- Python `dict.__getitem__`-style raw lookup in a mapping value. -/
def ylookup (m : List (String × YValue)) (k : String) : Option YValue :=
  (m.find? (fun e => e.1 == k)).map (fun e => e.2)

/-- Python `d.get(k)` followed by an `is not None` test: a key bound to
YAML `null` behaves exactly like an absent key in those code paths. -/
def pyget (m : List (String × YValue)) (k : String) : Option YValue :=
  match ylookup m k with
  | some .ynull => none
  | v => v

/-! ### KeyStore (`keys.py`, class `Key`)

File-per-key durable state.  The base directory content is an association
list from key path to file content.  Each operation returns its result
together with the store it leaves behind, mirroring that the Python
methods act on the filesystem: `get_key` only opens the file for reading
and performs no write.
-/

structure KeyStore where
  entries : List (String × String)
deriving DecidableEq, Repr

namespace KeyStore

/-- Source `Key.has_key`: `os.path.isfile(keyfile)`. -/
def has_key (s : KeyStore) (k : String) : Bool :=
  s.entries.any (fun e => e.1 == k)

/-- Source `Key.set_key`: create parents and (over)write the key file. -/
def set_key (s : KeyStore) (k v : String) : KeyStore :=
  ⟨(k, v) :: s.entries.filter (fun e => e.1 ≠ k)⟩

/-- Contents of the key file, when present. -/
def read_key (s : KeyStore) (k : String) : Option String :=
  (s.entries.find? (fun e => e.1 == k)).map (fun e => e.2)

/-- Source `Key.get_key`: return the default if `has_key` fails, else read the
file.  The store component records that no write happens either way. -/
def get_key (s : KeyStore) (k : String) (dflt : Option String) :
    Option String × KeyStore :=
  if s.has_key k then (s.read_key k, s) else (dflt, s)

/-- Source `Key.unset_key`: remove the key file (tolerating absence). -/
def unset_key (s : KeyStore) (k : String) : KeyStore :=
  ⟨s.entries.filter (fun e => e.1 ≠ k)⟩

theorem has_key_set_key (s : KeyStore) (k v : String) :
    (s.set_key k v).has_key k = true := by
  simp [set_key, has_key]

theorem read_key_set_key (s : KeyStore) (k v : String) :
    (s.set_key k v).read_key k = some v := by
  simp [set_key, read_key, List.find?]

theorem has_key_unset_key (s : KeyStore) (k : String) :
    (s.unset_key k).has_key k = false := by
  simp [unset_key, has_key]

end KeyStore

end Director

/-- C10: after `set_key(k, v)` the key is present and `get_key` returns `v`;
after `unset_key(k)` the key is absent; `get_key` of an absent key returns
the supplied default and leaves the store untouched. -/
theorem keystore_roundtrip (s : Director.KeyStore) (k v : String)
    (d : Option String) :
    ((s.set_key k v).has_key k = true ∧
      (s.set_key k v).get_key k d = (some v, s.set_key k v)) ∧
    (s.unset_key k).has_key k = false ∧
    (s.has_key k = false → s.get_key k d = (d, s)) := by
  refine ⟨⟨Director.KeyStore.has_key_set_key s k v, ?_⟩,
    Director.KeyStore.has_key_unset_key s k, ?_⟩
  · rw [Director.KeyStore.get_key, if_pos (Director.KeyStore.has_key_set_key s k v),
      Director.KeyStore.read_key_set_key]
  · intro h
    rw [Director.KeyStore.get_key, h]
    simp

/-- C10 witness: the round-trip properties evaluated on a concrete store. -/
theorem keystore_roundtrip_witness :
    ((Director.KeyStore.mk [("a/b", "x")]).has_key "zz" = false) ∧
    ((Director.KeyStore.mk [("a/b", "x")]).get_key "zz" (some "dflt") =
      (some "dflt", Director.KeyStore.mk [("a/b", "x")])) := by
  have h := keystore_roundtrip (Director.KeyStore.mk [("a/b", "x")]) "zz" "v" (some "dflt")
  exact ⟨by decide, h.2.2 (by decide)⟩

namespace Director

/-! ### Defaults (`director/default.py`)

Modelled from the spec: the module `director/default.py` is not under
`src/`; the constants below follow the defaults the spec states in §3
(ServiceDef and VolumeDef defaults) and §4.3.
-/

def DEFAULT_PRIORITY : Int := 99
def DEFAULT_MAKEJAIL : String := "Makejail"
def DEFAULT_RESET_OPTIONS : Bool := false
def DEFAULT_IGNORE_MTIME : Bool := false
def FSTAB_TYPE : String := "nullfs"
def FSTAB_OPTIONS : String := "rw"
def FSTAB_DUMP : Int := 0
def FSTAB_PASS : Int := 0

/-! ### Project state (`project.py`, class `Project`)

The environment of one reconciliation run after `Project.open`: the two
parsed specifications (post-validation, so `services` is present and each
service is a mapping), the `new_project` flag, the project key store, and
the filesystem view needed by the Makejail mtime checks.
-/

structure ProjectEnv where
  new_project : Option Bool
  currentServices : List (String × YValue)
  nextServices : List (String × YValue)
  currentOptions : Option YValue
  nextOptions : Option YValue
  keys : KeyStore
  storedMtime : String → Option Rat
  fsIsFile : String → Bool
  fsMtime : String → Rat

namespace ProjectEnv

/-- Truthiness of `self.new_project is None or self.new_project`. -/
def newProjectFlag (st : ProjectEnv) : Bool :=
  match st.new_project with
  | none => true
  | some b => b

/-- Source `Project.differ`: always true for a new or undetermined project, or
when the service is missing on either side; otherwise Python `!=` of the
two raw service sub-mappings. -/
def differ (st : ProjectEnv) (s : String) : Bool :=
  if st.newProjectFlag then true
  else
    match pyget st.currentServices s, pyget st.nextServices s with
    | some cs, some ns => !(ybeq cs ns)
    | _, _ => true

/-- Source `Project.differ_options`: false when both specs omit `options`,
otherwise Python `!=` of the two raw values (a one-sided `options` always
differs from `None`). -/
def differOptions (st : ProjectEnv) : Bool :=
  if st.newProjectFlag then true
  else
    match st.currentOptions, st.nextOptions with
    | none, none => false
    | some a, some b => !(ybeq a b)
    | _, _ => true

/-- Source `Project.has_failed`: presence of the `<service>/fail` marker key. -/
def has_failed (st : ProjectEnv) (s : String) : Bool :=
  st.keys.has_key (s ++ "/fail")

/-- Raw mapping of a service of the next spec.  `Project.__get_service`
raises `ServiceNotFound` for a missing service; the reconciler only calls
the accessors below on members of the next spec, so the empty mapping
stands for that unreachable error case. -/
def svcNext (st : ProjectEnv) (s : String) : List (String × YValue) :=
  match pyget st.nextServices s with
  | some (.ymap m) => m
  | _ => []

/-- Source `Project.get_priority` on the next spec (validated value is an
integer; default 99). -/
def getPriority (st : ProjectEnv) (s : String) : Int :=
  match pyget (st.svcNext s) "priority" with
  | some (.yint n) => n
  | _ => DEFAULT_PRIORITY

/-- Source `Project.reset_options` on the next spec.  A `null` value in the
document makes Python return `None`, which is falsy at every call site,
matching the default `false`. -/
def reset_options (st : ProjectEnv) (s : String) : Bool :=
  match pyget (st.svcNext s) "reset_options" with
  | some (.ybool b) => b
  | _ => DEFAULT_RESET_OPTIONS

/-- Source `Project.ignore_mtime` on the next spec (same conventions as
`reset_options`). -/
def ignore_mtime (st : ProjectEnv) (s : String) : Bool :=
  match pyget (st.svcNext s) "ignore_mtime" with
  | some (.ybool b) => b
  | _ => DEFAULT_IGNORE_MTIME

/-- Source `Project.get_makejail` on the next spec (validated value is a string;
default `"Makejail"`). -/
def get_makejail (st : ProjectEnv) (s : String) : String :=
  match pyget (st.svcNext s) "makejail" with
  | some (.ystr p) => p
  | _ => DEFAULT_MAKEJAIL

/-- Source `Project.get_current_makejail_mtime`:
`float(self.get_key(f"{service}/makejail_mtime", 0.0))` — the numeric
value of the stored key, `0` when the key is absent.  `storedMtime` is
the parsed-float view of that key of the store. -/
def get_current_makejail_mtime (st : ProjectEnv) (s : String) : Rat :=
  (st.storedMtime s).getD 0

/-- Source `Project.get_makejail_mtime`: current filesystem mtime of the
service Makejail, `0` when the file does not exist. -/
def get_makejail_mtime (st : ProjectEnv) (s : String) : Rat :=
  let p := st.get_makejail s
  if st.fsIsFile p then st.fsMtime p else 0

/-- Source `Project.check_makejail_mtime`: strict comparison of the stored and
current mtimes. -/
def check_makejail_mtime (st : ProjectEnv) (s : String) : Bool :=
  st.get_current_makejail_mtime s < st.get_makejail_mtime s

/-- Service names of the current spec, in document order. -/
def currentNames (st : ProjectEnv) : List String :=
  st.currentServices.map Prod.fst

/-- Service names of the next spec, in document order. -/
def nextNames (st : ProjectEnv) : List String :=
  st.nextServices.map Prod.fst

/-- Source `Project.get_removed`: services of the current spec that are absent
from the next spec (Python set difference). -/
def get_removed (st : ProjectEnv) : Finset String :=
  st.currentNames.toFinset \ st.nextNames.toFinset

end ProjectEnv

/-- Condition of the `up` loop deciding that a service of the next spec
must be re-created (`__init__.py`, lines 208-216). -/
def recreateCond (st : ProjectEnv) (overwrite : Bool) (s : String) : Bool :=
  overwrite || st.differ s || st.has_failed s ||
    (!st.ignore_mtime s && st.check_makejail_mtime s) ||
    (!st.reset_options s && st.differOptions)

/-- Removal set computed by `up` (`__init__.py`, lines 205-216): start from
`Project.get_removed` and add every service of the next spec meeting
`recreateCond`.  The Python loop iterates an unordered set; the result is a
set, so we fold over the document-order list without loss. -/
def upToRemove (st : ProjectEnv) (overwrite : Bool) : Finset String :=
  st.nextNames.foldl
    (fun acc s => if recreateCond st overwrite s then insert s acc else acc)
    st.get_removed

theorem foldl_insert_filter (p : String → Bool) :
    ∀ (l : List String) (init : Finset String),
      l.foldl (fun acc s => if p s then insert s acc else acc) init
        = init ∪ (l.filter p).toFinset := by
  intro l
  induction l with
  | nil => intro init; simp
  | cons a t ih =>
    intro init
    by_cases h : p a
    · simp only [List.foldl, h, if_pos, List.filter_cons_of_pos h, List.toFinset_cons]
      rw [ih]
      ext x
      simp only [Finset.mem_union, Finset.mem_insert]
      tauto
    · simp only [List.foldl, h, if_neg, List.filter_cons_of_neg h]
      rw [ih]
      simp [h]

end Director

/-- C1: the removal set of an `up` run is exactly the services of the
current spec absent from the next spec, together with every service of the
next spec for which overwrite was requested, or `differ`, or `has_failed`,
or (`ignore_mtime` false and `check_makejail_mtime` true), or
(`reset_options` false and `differ_options` true). -/
theorem up_removal_set (st : Director.ProjectEnv) (ow : Bool) (s : String) :
    s ∈ Director.upToRemove st ow ↔
      (s ∈ st.currentNames ∧ s ∉ st.nextNames) ∨
      (s ∈ st.nextNames ∧
        (ow = true ∨ st.differ s = true ∨ st.has_failed s = true ∨
          (st.ignore_mtime s = false ∧ st.check_makejail_mtime s = true) ∨
          (st.reset_options s = false ∧ st.differOptions = true))) := by
  unfold Director.upToRemove
  rw [Director.foldl_insert_filter]
  simp only [Director.ProjectEnv.get_removed, Finset.mem_union, Finset.mem_sdiff,
    List.mem_toFinset, List.mem_filter, Director.recreateCond, Bool.or_eq_true,
    Bool.and_eq_true, Bool.not_eq_true']
  tauto

/-- C5: `check_makejail_mtime(service)` is true exactly when the stored
`<service>/makejail_mtime` value (0 when the key is absent) is strictly
below the current filesystem mtime of the Makejail file (0 when the file
is absent). -/
theorem check_makejail_mtime_iff (st : Director.ProjectEnv) (s : String) :
    st.check_makejail_mtime s = true ↔
      (st.storedMtime s).getD 0 <
        (if st.fsIsFile (st.get_makejail s) then st.fsMtime (st.get_makejail s)
         else 0) := by
  simp [Director.ProjectEnv.check_makejail_mtime,
    Director.ProjectEnv.get_current_makejail_mtime,
    Director.ProjectEnv.get_makejail_mtime]

namespace Director

/-! ### Create-phase processing order (`__init__.py`, lines 201-271)

The `up` command builds `order` by iterating `services`, which
`Project.get_services` returns as a Python `set` — an unordered
collection whose iteration order is arbitrary (string hashing is even
randomized per process).  It then runs
`sorted(order, key=lambda s: s["priority"])`; Python `sorted` is the
stable sort by the key, which `List.insertionSort` with the total
preorder below computes.
-/

/-- Ascending-priority preorder on service names. -/
def prioLE (key : String → Int) (a b : String) : Prop := key a ≤ key b

instance (key : String → Int) : DecidableRel (prioLE key) :=
  fun a b => inferInstanceAs (Decidable (key a ≤ key b))

/-- Order in which the create phase processes services: the stable sort by
priority of `iter`, the iteration order of the unordered service-name set. -/
def createOrder (st : ProjectEnv) (iter : List String) : List String :=
  List.insertionSort (prioLE (st.getPriority)) iter

/-- Order claimed by the spec: ascending priority with ties broken by the
document order of the service mapping, that is the stable sort by priority
of the document-order name list. -/
def specCreateOrder (st : ProjectEnv) : List String :=
  List.insertionSort (prioLE (st.getPriority)) st.nextNames

/-- Two services with equal priority, to exhibit the tie-order behavior. -/
def tieEnv : ProjectEnv :=
  { new_project := some false
    currentServices :=
      [("a", .ymap [("priority", .yint 1)]), ("b", .ymap [("priority", .yint 1)])]
    nextServices :=
      [("a", .ymap [("priority", .yint 1)]), ("b", .ymap [("priority", .yint 1)])]
    currentOptions := none
    nextOptions := none
    keys := ⟨[]⟩
    storedMtime := fun _ => none
    fsIsFile := fun _ => false
    fsMtime := fun _ => 0 }

end Director

/-- C2 counterexample: iterating the service-name set as `["b", "a"]` — a
legitimate iteration order of the set of services of `tieEnv` — makes the
create phase process equal-priority services in an order different from
the document order, refuting the tie-breaking part of the claim. -/
theorem create_order_tie_counterexample :
    List.Perm ["b", "a"] (Director.ProjectEnv.nextNames Director.tieEnv) ∧
    Director.createOrder Director.tieEnv ["b", "a"] ≠
      Director.specCreateOrder Director.tieEnv := by
  constructor
  · exact List.Perm.swap "a" "b" []
  · decide

/-- C2 (amended): the create phase processes the services sorted by
ascending priority and processes each service of the iteration order
exactly once; when the iteration order enumerates the services of the next
spec, the processed services are exactly those of the next spec.  Ties
between equal priorities follow the set iteration order, which is not
necessarily the document order. -/
theorem create_order_sorted (st : Director.ProjectEnv) (iter : List String) :
    List.Pairwise (fun a b => st.getPriority a ≤ st.getPriority b)
      (Director.createOrder st iter) ∧
    List.Perm (Director.createOrder st iter) iter ∧
    (List.Perm iter st.nextNames →
      List.Perm (Director.createOrder st iter) st.nextNames) := by
  have hperm := List.perm_insertionSort (Director.prioLE st.getPriority) iter
  refine ⟨?_, hperm, fun hp => hperm.trans hp⟩
  haveI : IsTotal String (Director.prioLE st.getPriority) :=
    ⟨fun a b => Int.le_total _ _⟩
  haveI : IsTrans String (Director.prioLE st.getPriority) :=
    ⟨fun _ _ _ hab hbc => le_trans hab hbc⟩
  exact List.sorted_insertionSort (Director.prioLE st.getPriority) iter

/-- C2 witness: the amended theorem applied to the concrete two-service
environment with the reversed iteration order. -/
theorem create_order_sorted_witness :
    List.Perm (Director.createOrder Director.tieEnv ["b", "a"])
      (Director.ProjectEnv.nextNames Director.tieEnv) :=
  (create_order_sorted Director.tieEnv ["b", "a"]).2.2 (List.Perm.swap "a" "b" [])

namespace Director

namespace ProjectEnv

/-- Source `Project.get_start_arguments`: raw `start` sequence of the service in
the next spec (empty when absent; a null value is falsy like the empty
default at the only call site). -/
def get_start_arguments (st : ProjectEnv) (s : String) : List YValue :=
  match pyget (st.svcNext s) "start" with
  | some (.ylist l) => l
  | _ => []

/-- Source `Project.get_start_environment`: raw `start-environment` sequence. -/
def get_start_environment (st : ProjectEnv) (s : String) : List YValue :=
  match pyget (st.svcNext s) "start-environment" with
  | some (.ylist l) => l
  | _ => []

/-- Source `Project.get_scripts`: raw `scripts` sequence. -/
def get_scripts (st : ProjectEnv) (s : String) : List YValue :=
  match pyget (st.svcNext s) "scripts" with
  | some (.ylist l) => l
  | _ => []

end ProjectEnv

/-! ### Trace of one `up` run (`__init__.py`, lines 223-419)

Each external jail-tool call the reconciler makes is recorded as one
event.  The oracles below fix the integer result of every call; key-store
writes and log files do not influence the order of calls and are omitted
from the trace.  Jail-name resolution (`get_jail_name`) is abstracted by
the functions `jailR` (removal phase) and `jailC` (create phase).
-/

/-- Observable jail operations of an `up` run. -/
inductive JailOp where
  | jstop (service jail : String)
  | jdestroy (service jail : String)
  | jmakejail (service jail : String)
  | jenable (service jail : String)
  | jscript (service jail : String)
  | jstart (service jail : String)
deriving DecidableEq, Repr

/-- Results of the external tool calls: `check`, `jail get dirty`,
`status -q`, `jail destroy`, `makejail`, per-script `cmd`, `start`.
`stop` and `enable_start` results never affect control flow. -/
structure UpWorld where
  check : String → Int
  isDirty : String → Int
  statusOf : String → Int
  destroyRC : String → Int
  makejailRC : String → Int
  cmdRC : String → Nat → Int
  startRC : String → Int

/-- Events of removing one service whose jail exists: `stop` when the
jail is running (its result is never fatal), then `destroy`. -/
def stopDestroyEvs (w : UpWorld) (jailOf : String → String) (s : String) :
    List JailOp :=
  (if w.statusOf (jailOf s) == 0 then [JailOp.jstop s (jailOf s)] else [])
    ++ [JailOp.jdestroy s (jailOf s)]

/-- Removal phase (lines 224-265): for each selected service whose jail
exists, optionally `stop` (when running), then `destroy`; a failing
destroy exits the run. -/
def removalSteps (w : UpWorld) (jailOf : String → String) :
    List String → List JailOp × Bool
  | [] => ([], false)
  | s :: rest =>
    if w.check (jailOf s) == 0 then
      if w.destroyRC (jailOf s) == 0 then
        (stopDestroyEvs w jailOf s ++ (removalSteps w jailOf rest).1,
          (removalSteps w jailOf rest).2)
      else (stopDestroyEvs w jailOf s, true)
    else removalSteps w jailOf rest

/-- Script loop of one service (lines 363-396): one `cmd` per script in
document order; a failing script exits the run. -/
def scriptSteps (w : UpWorld) (s j : String) : Nat → Nat → List JailOp × Bool
  | _, 0 => ([], false)
  | idx, n + 1 =>
    if w.cmdRC s idx == 0 then
      (JailOp.jscript s j :: (scriptSteps w s j (idx + 1) n).1,
        (scriptSteps w s j (idx + 1) n).2)
    else ([JailOp.jscript s j], true)

/-- Start step of one service (lines 398-417): `start` when the jail is
not running; a failing start exits the run. -/
def startPart (w : UpWorld) (s j : String) : List JailOp × Bool :=
  if w.statusOf j == 0 then ([], false)
  else ([JailOp.jstart s j], w.startRC j != 0)

/-- Source `enable_start` is issued when the service has start arguments or a
start environment; its result is logged but never fatal. -/
def enableEvs (st : ProjectEnv) (s j : String) : List JailOp :=
  if !(st.get_start_arguments s).isEmpty || !(st.get_start_environment s).isEmpty
  then [JailOp.jenable s j] else []

/-- Create phase body for one service (lines 270-419): rebuild when the
jail is missing or dirty (`makejail`, optional `enable_start`, scripts),
then start it when it is not running. -/
def serviceSteps (w : UpWorld) (st : ProjectEnv) (s j : String) :
    List JailOp × Bool :=
  if w.check j != 0 || w.isDirty j != 0 then
    if w.makejailRC j == 0 then
      if (scriptSteps w s j 0 (st.get_scripts s).length).2 then
        (JailOp.jmakejail s j :: enableEvs st s j
            ++ (scriptSteps w s j 0 (st.get_scripts s).length).1, true)
      else
        (JailOp.jmakejail s j :: enableEvs st s j
            ++ (scriptSteps w s j 0 (st.get_scripts s).length).1
            ++ (startPart w s j).1,
          (startPart w s j).2)
    else ([JailOp.jmakejail s j], true)
  else startPart w s j

/-- Create phase over the priority-ordered service list; a fatal service
exits the run. -/
def createSteps (w : UpWorld) (st : ProjectEnv) (jailOf : String → String) :
    List String → List JailOp × Bool
  | [] => ([], false)
  | s :: rest =>
    if (serviceSteps w st s (jailOf s)).2 then
      ((serviceSteps w st s (jailOf s)).1, true)
    else
      ((serviceSteps w st s (jailOf s)).1 ++ (createSteps w st jailOf rest).1,
        (createSteps w st jailOf rest).2)

/-- Full trace of one `up` run: the removal phase, then — unless removal
exited the run — the create phase. -/
def upTrace (w : UpWorld) (st : ProjectEnv) (jailR jailC : String → String)
    (rl cl : List String) : List JailOp :=
  (removalSteps w jailR rl).1 ++
    (if (removalSteps w jailR rl).2 then [] else (createSteps w st jailC cl).1)

def isMakejailEv : JailOp → Bool
  | .jmakejail _ _ => true
  | _ => false

def isDestroyEv : JailOp → Bool
  | .jdestroy _ _ => true
  | _ => false

theorem stopDestroyEvs_no_makejail (w : UpWorld) (jailOf : String → String)
    (s : String) (e : JailOp) (he : e ∈ stopDestroyEvs w jailOf s) :
    isMakejailEv e = false := by
  rw [stopDestroyEvs] at he
  rcases List.mem_append.mp he with he | he
  · split_ifs at he
    · simp only [List.mem_singleton] at he; subst he; rfl
    · simp at he
  · simp only [List.mem_singleton] at he; subst he; rfl

theorem removalSteps_no_makejail (w : UpWorld) (jailOf : String → String) :
    ∀ (l : List String) (e : JailOp), e ∈ (removalSteps w jailOf l).1 →
      isMakejailEv e = false := by
  intro l
  induction l with
  | nil => intro e he; simp [removalSteps] at he
  | cons s rest ih =>
    intro e he
    rw [removalSteps] at he
    split_ifs at he
    · rcases List.mem_append.mp he with he | he
      · exact stopDestroyEvs_no_makejail w jailOf s e he
      · exact ih e he
    · exact stopDestroyEvs_no_makejail w jailOf s e he
    · exact ih e he

theorem scriptSteps_no_destroy (w : UpWorld) (s j : String) :
    ∀ (n idx : Nat) (e : JailOp), e ∈ (scriptSteps w s j idx n).1 →
      isDestroyEv e = false := by
  intro n
  induction n with
  | zero => intro idx e he; simp [scriptSteps] at he
  | succ k ih =>
    intro idx e he
    rw [scriptSteps] at he
    split_ifs at he
    · rcases List.mem_cons.mp he with he | he
      · subst he; rfl
      · exact ih (idx + 1) e he
    · simp only [List.mem_singleton] at he; subst he; rfl

theorem startPart_no_destroy (w : UpWorld) (s j : String) (e : JailOp)
    (he : e ∈ (startPart w s j).1) : isDestroyEv e = false := by
  rw [startPart] at he
  split_ifs at he
  · simp at he
  · simp only [List.mem_singleton] at he; subst he; rfl

theorem serviceSteps_no_destroy (w : UpWorld) (st : ProjectEnv) (s j : String)
    (e : JailOp) (he : e ∈ (serviceSteps w st s j).1) :
    isDestroyEv e = false := by
  rw [serviceSteps] at he
  have henab : ∀ x ∈ enableEvs st s j, isDestroyEv x = false := by
    intro x hx
    rw [enableEvs] at hx
    split_ifs at hx
    · simp only [List.mem_singleton] at hx; subst hx; rfl
    · simp at hx
  split_ifs at he
  · rcases List.mem_cons.mp he with he | he
    · subst he; rfl
    · rcases List.mem_append.mp he with he | he
      · exact henab e he
      · exact scriptSteps_no_destroy w s j _ 0 e he
  · rcases List.mem_cons.mp he with he | he
    · subst he; rfl
    · rcases List.mem_append.mp he with he | he
      · rcases List.mem_append.mp he with he | he
        · exact henab e he
        · exact scriptSteps_no_destroy w s j _ 0 e he
      · exact startPart_no_destroy w s j e he
  · simp only [List.mem_singleton] at he; subst he; rfl
  · exact startPart_no_destroy w s j e he

theorem createSteps_no_destroy (w : UpWorld) (st : ProjectEnv)
    (jailOf : String → String) :
    ∀ (l : List String) (e : JailOp), e ∈ (createSteps w st jailOf l).1 →
      isDestroyEv e = false := by
  intro l
  induction l with
  | nil => intro e he; simp [createSteps] at he
  | cons s rest ih =>
    intro e he
    rw [createSteps] at he
    split_ifs at he
    · exact serviceSteps_no_destroy w st s (jailOf s) e he
    · rcases List.mem_append.mp he with he | he
      · exact serviceSteps_no_destroy w st s (jailOf s) e he
      · exact ih e he

end Director

/-- C3: in every `up` run the removal phase precedes the create phase:
any `destroy` event of the trace occurs strictly before any `makejail`
event, in particular for a service that is both selected for removal and
present in the next spec. -/
theorem removal_precedes_creation (w : Director.UpWorld)
    (st : Director.ProjectEnv) (jailR jailC : String → String)
    (rl cl : List String) (i j : Nat)
    (hi : i < (Director.upTrace w st jailR jailC rl cl).length)
    (hj : j < (Director.upTrace w st jailR jailC rl cl).length)
    (s1 j1 s2 j2 : String)
    (hd : (Director.upTrace w st jailR jailC rl cl)[i] =
      Director.JailOp.jdestroy s1 j1)
    (hm : (Director.upTrace w st jailR jailC rl cl)[j] =
      Director.JailOp.jmakejail s2 j2) :
    i < j := by
  have hBnd : ∀ e ∈ (if (Director.removalSteps w jailR rl).2 then
      ([] : List Director.JailOp) else (Director.createSteps w st jailC cl).1),
      Director.isDestroyEv e = false := by
    intro e he1
    split at he1
    · simp at he1
    · exact Director.createSteps_no_destroy w st jailC cl e he1
  have hAnm := Director.removalSteps_no_makejail w jailR rl
  unfold Director.upTrace at hi hj hd hm
  have hiA : i < (Director.removalSteps w jailR rl).1.length := by
    by_contra hcon
    push_neg at hcon
    rw [List.getElem_append_right hcon] at hd
    have hblen : i - (Director.removalSteps w jailR rl).1.length <
        (if (Director.removalSteps w jailR rl).2 then ([] : List Director.JailOp)
          else (Director.createSteps w st jailC cl).1).length := by
      rw [List.length_append] at hi
      omega
    have hmem := List.getElem_mem hblen
    rw [hd] at hmem
    have := hBnd _ hmem
    simp [Director.isDestroyEv] at this
  have hjA : (Director.removalSteps w jailR rl).1.length ≤ j := by
    by_contra hcon
    push_neg at hcon
    rw [List.getElem_append_left hcon] at hm
    have hmem := List.getElem_mem hcon
    rw [hm] at hmem
    have := hAnm _ hmem
    simp [Director.isMakejailEv] at this
  omega

namespace Director

/-- Concrete call-result oracle: every jail exists, is dirty and is not
running, and every external operation succeeds. -/
def traceWorld : UpWorld :=
  { check := fun _ => 0
    isDirty := fun _ => 1
    statusOf := fun _ => 1
    destroyRC := fun _ => 0
    makejailRC := fun _ => 0
    cmdRC := fun _ _ => 0
    startRC := fun _ => 0 }

end Director

/-- C3 witness: with service `a` selected for removal and also present in
the next spec, the concrete trace is destroy, makejail, start, and the
theorem places the destroy (index 0) strictly before the makejail
(index 1). -/
theorem removal_precedes_creation_witness :
    (Director.upTrace Director.traceWorld Director.tieEnv (fun _ => "ja")
        (fun _ => "ja") ["a"] ["a"]) =
      [Director.JailOp.jdestroy "a" "ja", Director.JailOp.jmakejail "a" "ja",
        Director.JailOp.jstart "a" "ja"] ∧
    (0 : Nat) < 1 := by
  refine ⟨by decide, ?_⟩
  exact removal_precedes_creation Director.traceWorld Director.tieEnv
    (fun _ => "ja") (fun _ => "ja") ["a"] ["a"] 0 1 (by decide) (by decide)
    "a" "ja" "a" "ja" (by decide) (by decide)

namespace Director

/-- Errors the core raises (`director/exceptions.py` is a file of empty
exception classes; constructors named after the classes the claims use). -/
inductive DirErr where
  | projectLocked
  | locksNotFound
  | volumeNotFound (name : String)
  | invalidSpec (msg : String)
deriving DecidableEq, Repr

/-! ### Project locking (`project.py`, lines 85-113 and 183-205) -/

/-- Key stores of one project: its own directory, and the `lock` key
store under the configured locks directory (`none` when no locks
directory was given to the constructor). -/
structure ProjectStores where
  projectKeys : KeyStore
  lockKeys : Option KeyStore
deriving DecidableEq, Repr

/-- Source `Project.lock`: fail with `LocksNotFound` when no locks directory is
configured, with `ProjectLocked` when the `lock` marker is present;
otherwise write the marker. -/
def lockOp (st : ProjectStores) : Except DirErr Unit × ProjectStores :=
  match st.lockKeys with
  | none => (.error .locksNotFound, st)
  | some lk =>
    if lk.has_key "lock" then (.error .projectLocked, st)
    else (.ok (), { st with lockKeys := some (lk.set_key "lock" "") })

/-- Source `Project.unlock` (reached by `open` only after a successful `lock`,
so the lock store is configured there). -/
def unlockOp (st : ProjectStores) : ProjectStores :=
  match st.lockKeys with
  | none => st
  | some lk => { st with lockKeys := some (lk.unset_key "lock") }

/-- Source `Project.open`: acquire the lock first; then run the body (spec
parsing and the current-spec file swap, abstracted as `body`, any step of
which may fail); on a body error release the lock and rethrow. -/
def openOp (body : ProjectStores → Except DirErr Unit × ProjectStores)
    (st : ProjectStores) : Except DirErr Unit × ProjectStores :=
  match lockOp st with
  | (.error e, st1) => (.error e, st1)
  | (.ok _, st1) =>
    match body st1 with
    | (.ok _, st2) => (.ok (), st2)
    | (.error e, st2) => (.error e, unlockOp st2)

end Director

/-- C4: when the lock marker is already present, a second `Project.open`
against the same stores fails with `ProjectLocked` and leaves every
persisted key — project keys and lock keys — exactly as it found them,
whatever the body would have done. -/
theorem open_locked (st : Director.ProjectStores) (lk : Director.KeyStore)
    (body : Director.ProjectStores →
      Except Director.DirErr Unit × Director.ProjectStores)
    (hconf : st.lockKeys = some lk) (hlocked : lk.has_key "lock" = true) :
    Director.openOp body st = (.error .projectLocked, st) := by
  unfold Director.openOp Director.lockOp
  rw [hconf]
  simp [hlocked]

/-- C4 witness: a locked concrete project rejects a second open and keeps
its stores unchanged. -/
theorem open_locked_witness :
    Director.openOp (fun s => (.ok (), s))
        ⟨⟨[("state", "done")]⟩, some ⟨[("lock", "")]⟩⟩ =
      (.error .projectLocked, ⟨⟨[("state", "done")]⟩, some ⟨[("lock", "")]⟩⟩) :=
  open_locked _ ⟨[("lock", "")]⟩ _ rfl (by decide)

namespace Director

/-! ### Driver timeout path (`jail.py`, `_run`, lines 260-307) -/

/-- Exit status for internal software errors, from BSD `sysexits.h`
(`director/sysexits.py` is a constants file not under `src/`). -/
def EX_SOFTWARE : Int := 70

/-- One external call: whether the child exits before the timeout, and
its exit status when it does. -/
structure ChildRun where
  completes : Bool
  exitCode : Int
deriving DecidableEq, Repr

/-- Side operations `_run` performs besides waiting on the child. -/
inductive RunAct where
  | jaildirKill
deriving DecidableEq, Repr

/-- Python `returncode == 0` where `returncode` may be `None`. -/
def pyEqZero : Option Int → Bool
  | some n => n == 0
  | none => false

/-- Source `_run(args, output, timeout, env)` without interrupts: wait for the
child; on `TimeoutExpired` run `_terminate(pid)` — the external
`cmd jaildir kill <pid>` path — and fall through.  `proc.returncode` is
then read without any further `wait`/`poll`, so after a timeout it is
still `None`; the final fixup turns an exact `0` into `EX_SOFTWARE` but
leaves `None` alone. -/
def runWithTimeout (c : ChildRun) : Option Int × List RunAct :=
  let timeoutExpired := !c.completes
  let acts : List RunAct := if timeoutExpired then [RunAct.jaildirKill] else []
  let rc : Option Int := if c.completes then some c.exitCode else none
  (if timeoutExpired && pyEqZero rc then some EX_SOFTWARE else rc, acts)

end Director

/-- C7: when the child is still running at the timeout, `_run` does invoke
the graceful `cmd jaildir kill <pid>` path, but it then returns Python
`None` — not a non-zero status: `proc.returncode` was never refreshed, so
callers that `sys.exit(returncode)` exit with status 0.  A completing
child returns its own status. -/
theorem run_timeout_returns_none :
    Director.runWithTimeout ⟨false, 0⟩ =
      (none, [Director.RunAct.jaildirKill]) ∧
    Director.runWithTimeout ⟨true, 7⟩ = (some 7, []) := by
  decide

namespace Director

/-! ### The `describe` command (`__init__.py`, lines 794-846) -/

/-- Persisted project state `describe` reads: the `state` and `last_log`
keys and the lock marker.  As invoked by the CLI the `Project` receives
no locks directory, so `locked()` would raise `LocksNotFound`; the model
grants `describe` the configured-locks view the spec assumes, which is
the generous reading. -/
structure DescribeView where
  stateKey : Option String
  lastLogKey : Option String
  lockMarker : Bool
deriving DecidableEq, Repr

/-- JSON fields of the `describe` output covered by the claims (`name`
and `services` appear in no claim and are omitted). -/
structure DescribeOut where
  state : String
  last_log : Option String
  locked : Bool
deriving DecidableEq, Repr

/-- Python `str.upper()`: uppercase every character. -/
def pyUpper (s : String) : String :=
  String.mk (s.data.map Char.toUpper)

/-- Source `describe`: the state falls back to `"unfinished"` and is uppercased;
`last_log` is `get_key("last_log") or None`; `locked` is assigned `True`
in both branches of `if project_obj.locked()` (lines 814-817). -/
def describeOutput (v : DescribeView) : DescribeOut :=
  { state := pyUpper (v.stateKey.getD "unfinished")
    last_log :=
      match v.lastLogKey with
      | some s => if s == "" then none else some s
      | none => none
    locked := if v.lockMarker then true else true }

end Director

/-- C9: on a project whose lock marker is absent, `describe` still emits
`locked = true` — both branches of its `if project_obj.locked()` assign
`True`, unlike `info`, which prints `false` here — while the `state`
field behaves as claimed (persisted state uppercased, `unfinished`
fallback). -/
theorem describe_locked_bug :
    (Director.describeOutput ⟨none, none, false⟩).locked = true ∧
    (Director.describeOutput ⟨none, none, false⟩).state = "UNFINISHED" ∧
    (Director.describeOutput ⟨some "done", none, true⟩).state = "DONE" := by
  refine ⟨rfl, ?_, ?_⟩ <;> decide

namespace Director

/-! ### Volume emission in `makejail` (`jail.py`, lines 170-228)

A jail-level volume entry is the single pair `volume-name → mountpoint`
(the parser has normalized it).  The global volume definitions are the
validated `volumes` mapping; optional keys are `none` when absent.
`os.path.realpath` (applied to `nullfs`/`<pseudofs>` devices after the
directory-creation side effects) is an oracle parameter. -/

structure VolumeDef where
  device : String
  vtype : Option String
  voptions : Option String
  vdump : Option Int
  vpass : Option Int
deriving DecidableEq, Repr

/-- Lookup in the global volumes mapping (`global_volumes.get(name)`). -/
def vlookup (gv : List (String × VolumeDef)) (nm : String) : Option VolumeDef :=
  (gv.find? (fun e => e.1 == nm)).map (fun e => e.2)

/-- Escape every inner double quote as the source does: the Python
replace of a double-quote character by backslash double-quote. -/
def escQuote (s : String) : String :=
  s.replace "\"" "\\\""

/-- Source `volume.get("type", default_volume_type)`. -/
def volType (v : VolumeDef) (dvt : String) : String :=
  v.vtype.getD dvt

/-- Device actually emitted: resolved to a real path for `nullfs` and
`<pseudofs>` volumes (after the mkdir/chmod/chown side effects, which do
not change the emitted string beyond `realpath`). -/
def resolvedDevice (realpath : String → String) (v : VolumeDef)
    (dvt : String) : String :=
  if volType v dvt == "nullfs" || volType v dvt == "<pseudofs>"
  then realpath v.device else v.device

/-- The f-string
`fstab="{device}" "{mountpoint}" "{type_}" "{volume_options}" {dump} {pass_}`
applied to the already-escaped fields. -/
def fstabLine (device mountpoint vtype voptions : String)
    (vdump vpass : Int) : String :=
  "fstab=\"" ++ device ++ "\" \"" ++ mountpoint ++ "\" \"" ++ vtype
    ++ "\" \"" ++ voptions ++ "\" " ++ toString vdump ++ " " ++ toString vpass

/-- Command-line arguments the volume loop of `makejail` appends: for
each entry, look the volume up (`VolumeNotFound` when missing) and emit
one `-o` option holding the fstab line. -/
def makejailVolumeArgs (realpath : String → String)
    (jailVolumes : List (String × String)) (gv : List (String × VolumeDef))
    (dvt : String) : Except DirErr (List String) :=
  match jailVolumes with
  | [] => .ok []
  | (nm, mp) :: rest =>
    match vlookup gv nm with
    | none => .error (.volumeNotFound nm)
    | some v =>
      match makejailVolumeArgs realpath rest gv dvt with
      | .ok l =>
        .ok ("-o" :: fstabLine (escQuote (resolvedDevice realpath v dvt))
          (escQuote mp) (escQuote (volType v dvt))
          (escQuote (v.voptions.getD FSTAB_OPTIONS)) (v.vdump.getD FSTAB_DUMP)
          (v.vpass.getD FSTAB_PASS) :: l)
      | .error e => .error e

/-- Option pair the claim describes for one volume entry: exactly one
`fstab` option of the form
`fstab="device" "mountpoint" "type" "options" dump pass` with every inner
double quote of the four quoted fields escaped as a backslash-quote and
the numeric dump and pass fields trailing unquoted.  Stated directly from
the claim text as a separate definition for the refinement. -/
def claimVolumeOption (realpath : String → String) (dvt : String)
    (gv : List (String × VolumeDef)) (e : String × String) : List String :=
  match vlookup gv e.1 with
  | some v =>
    ["-o",
      "fstab=\"" ++ (resolvedDevice realpath v dvt).replace "\"" "\\\""
        ++ "\" \"" ++ e.2.replace "\"" "\\\""
        ++ "\" \"" ++ (volType v dvt).replace "\"" "\\\""
        ++ "\" \"" ++ (v.voptions.getD "rw").replace "\"" "\\\""
        ++ "\" " ++ toString (v.vdump.getD 0) ++ " " ++ toString (v.vpass.getD 0)]
  | none => []

end Director

/-- C6: a volume entry whose name is not a key of the global volumes
mapping makes the call fail with `VolumeNotFound` (naming some missing
volume); otherwise the emitted arguments are exactly one escaped `fstab`
option of the claimed form per entry, in order. -/
theorem makejail_volume_emission (realpath : String → String)
    (jv : List (String × String)) (gv : List (String × Director.VolumeDef))
    (dvt : String) :
    ((∃ e ∈ jv, Director.vlookup gv e.1 = none) →
      ∃ nm, Director.makejailVolumeArgs realpath jv gv dvt =
          .error (.volumeNotFound nm) ∧ Director.vlookup gv nm = none) ∧
    (∀ l, Director.makejailVolumeArgs realpath jv gv dvt = .ok l →
      l = jv.flatMap (Director.claimVolumeOption realpath dvt gv)) := by
  induction jv with
  | nil =>
    constructor
    · rintro ⟨e, he, -⟩
      exact absurd he (List.not_mem_nil e)
    · intro l hl
      simp [Director.makejailVolumeArgs] at hl
      simp [hl]
  | cons p rest ih =>
    obtain ⟨nm, mp⟩ := p
    constructor
    · rintro ⟨e, he, hmiss⟩
      rcases List.mem_cons.mp he with rfl | he2
      · have hmiss2 : Director.vlookup gv nm = none := hmiss
        refine ⟨nm, ?_, hmiss2⟩
        rw [Director.makejailVolumeArgs, hmiss2]
      · rw [Director.makejailVolumeArgs]
        cases hfind : Director.vlookup gv nm with
        | none => exact ⟨nm, rfl, hfind⟩
        | some v =>
          obtain ⟨nm2, hrec, hmiss2⟩ := ih.1 ⟨e, he2, hmiss⟩
          rw [hrec]
          exact ⟨nm2, rfl, hmiss2⟩
    · intro l hl
      rw [Director.makejailVolumeArgs] at hl
      cases hfind : Director.vlookup gv nm with
      | none => rw [hfind] at hl; exact absurd hl (by simp)
      | some v =>
        rw [hfind] at hl
        cases hrec : Director.makejailVolumeArgs realpath rest gv dvt with
        | error e => rw [hrec] at hl; exact absurd hl (by simp)
        | ok l2 =>
          rw [hrec] at hl
          simp only [Except.ok.injEq] at hl
          subst hl
          rw [List.flatMap_cons, ih.2 l2 hrec]
          simp only [Director.claimVolumeOption, hfind, List.cons_append,
            List.nil_append, Director.fstabLine, Director.escQuote]
          rfl

/-- C6 witness: a dangling volume name fails with `VolumeNotFound`; a
bound one emits exactly its claimed `fstab` option. -/
theorem makejail_volume_emission_witness :
    (∃ nm, Director.makejailVolumeArgs id [("v1", "/mnt")] [] "nullfs" =
        .error (.volumeNotFound nm) ∧ Director.vlookup [] nm = none) ∧
    (∃ l, Director.makejailVolumeArgs id [("data", "/var/db")]
          [("data", ⟨"/tank/db", none, none, none, none⟩)] "nullfs" = .ok l ∧
        l = [("data", "/var/db")].flatMap
          (Director.claimVolumeOption id "nullfs"
            [("data", ⟨"/tank/db", none, none, none, none⟩)])) := by
  constructor
  · exact (makejail_volume_emission id [("v1", "/mnt")] [] "nullfs").1
      ⟨("v1", "/mnt"), by simp, rfl⟩
  · exact ⟨_, rfl,
      (makejail_volume_emission id [("data", "/var/db")]
        [("data", ⟨"/tank/db", none, none, none, none⟩)] "nullfs").2 _ rfl⟩

namespace Director

/-! ### Spec validation (`parser.py`)

`_fix_non_str_list` normalizes an "ordered sequence of single-entry
mappings"; `__check_service` wires it to the service fields, passing
`allow_none = False` exactly for `arguments`, `oci.environment`,
`volumes` and `start`.  Mapping keys are modelled post-`str()`-coercion;
`str()` of a value never fails, so key and value coercions cannot reject.
-/

/-- Python `value is None` on a parsed YAML value. -/
def isNullv : YValue → Bool
  | .ynull => true
  | _ => false

/-- Source `isinstance(x, int)` — Python `bool` is a subclass of `int`. -/
def pyIsInt : YValue → Bool
  | .yint _ => true
  | .ybool _ => true
  | _ => false

/-- Source `isinstance(x, bool)`. -/
def pyIsBool : YValue → Bool
  | .ybool _ => true
  | _ => false

/-- Keep a string, coerce any other value with `str()`. -/
def pyStr : YValue → String
  | .ystr s => s
  | w => w.ytostr

/-- Value normalization of `_fix_non_str_list`: `None` stays, strings
stay, anything else is `str()`-coerced. -/
def normVal : YValue → Option String
  | .ynull => none
  | .ystr s => some s
  | w => some w.ytostr

/-- Entry loop of `_fix_non_str_list` (lines 368-390): each entry must be
a mapping with exactly one pair; a null value is rejected when
`allow_none` is false; values are normalized. -/
def fixEntries (name : String) (allowNone : Bool) :
    List YValue → Except DirErr (List (String × Option String))
  | [] => .ok []
  | .ymap [(k, v)] :: rest =>
    if !allowNone && isNullv v then
      .error (.invalidSpec (name ++ ": Value required but not defined."))
    else
      match fixEntries name allowNone rest with
      | .ok l => .ok ((k, normVal v) :: l)
      | .error e => .error e
  | .ymap _ :: _ =>
    .error (.invalidSpec (name ++ ": Invalid length. Must have only one element."))
  | _ :: _ => .error (.invalidSpec (name ++ ": Must be a Mapping."))

/-- Source `_fix_non_str_list(data, name, allow_none)`. -/
def fixNonStrList (data : YValue) (name : String) (allowNone : Bool) :
    Except DirErr (List (String × Option String)) :=
  match data with
  | .ylist es => fixEntries name allowNone es
  | _ => .error (.invalidSpec (name ++ ": Must be a List."))

/-- Whether a validation step accepted. -/
def exceptOk {α : Type} : Except DirErr α → Bool
  | .ok _ => true
  | .error _ => false

/-- Python statement sequencing of two validation steps: the first
raised error propagates. -/
def exSeq (x y : Except DirErr Unit) : Except DirErr Unit :=
  match x with
  | .ok _ => y
  | .error e => .error e

/-- Source `__check_allowed_key`: the first unknown key raises. -/
def checkAllowedKeys (allowed : List String) (scope : String)
    (m : List (String × YValue)) : Except DirErr Unit :=
  match m.find? (fun e2 => !(allowed.contains e2.1)) with
  | some e2 => .error (.invalidSpec (scope ++ ": Unknown key " ++ e2.1))
  | none => .ok ()

/-- An integer-typed optional field (`priority`, `serial`). -/
def checkIntField (svc : List (String × YValue)) (key : String) :
    Except DirErr Unit :=
  match pyget svc key with
  | none => .ok ()
  | some p =>
    if pyIsInt p then .ok ()
    else .error (.invalidSpec (key ++ ": Must be an Integer."))

/-- A boolean-typed optional field (`reset_options`, `ignore_mtime`). -/
def checkBoolField (svc : List (String × YValue)) (key : String) :
    Except DirErr Unit :=
  match pyget svc key with
  | none => .ok ()
  | some p =>
    if pyIsBool p then .ok ()
    else .error (.invalidSpec (key ++ ": Must be a Boolean."))

/-- Jail-name pattern of `__check_service`:
first character alphanumeric or underscore, then alphanumerics,
underscores and hyphens. -/
def jailNameOk (s : String) : Bool :=
  match s.toList with
  | [] => false
  | c :: rest =>
    (c.isAlphanum || c == '_') &&
      rest.all (fun d => d.isAlphanum || d == '_' || d == '-')

/-- The optional explicit jail name, `str()`-coerced then matched. -/
def checkNameField (svc : List (String × YValue)) : Except DirErr Unit :=
  match pyget svc "name" with
  | none => .ok ()
  | some n =>
    if jailNameOk (pyStr n) then .ok ()
    else .error (.invalidSpec "name: Jail name is incorrect.")

/-- One ordered-sequence field, validated through `_fix_non_str_list`
with the given `allow_none`. -/
def checkSeq (svc : List (String × YValue)) (key : String) (an : Bool) :
    Except DirErr Unit :=
  match pyget svc key with
  | none => .ok ()
  | some v =>
    match fixNonStrList v key an with
    | .ok _ => .ok ()
    | .error e => .error e

/-- The `oci` block: a mapping whose `user` and `workdir` are only
coerced; its `environment` goes through `_fix_non_str_list` with
`allow_none = False`. -/
def checkOci (svc : List (String × YValue)) : Except DirErr Unit :=
  match pyget svc "oci" with
  | none => .ok ()
  | some (.ymap o) => checkSeq o "environment" false
  | some _ => .error (.invalidSpec "oci: Must be a Mapping.")

def SCRIPT_KEYS : List String := ["shell", "type", "text"]

def SCRIPT_TYPES : List String := ["jexec", "local", "chroot"]

/-- Source `__check_script`: allowed keys, the enumerated `type`, required
`text`; `shell` is only coerced. -/
def checkScript (sc : List (String × YValue)) : Except DirErr Unit :=
  exSeq (checkAllowedKeys SCRIPT_KEYS "scripts" sc)
    (exSeq
      (match pyget sc "type" with
       | none => .ok ()
       | some t =>
         if SCRIPT_TYPES.contains (pyStr t) then .ok ()
         else .error (.invalidSpec "type: Only jexec, local and chroot can be used."))
      (match pyget sc "text" with
       | none => .error (.invalidSpec "text: Value required but not defined.")
       | some _ => .ok ()))

/-- Entry loop of `__check_scripts`: every entry must be a mapping. -/
def checkScriptEntries : List YValue → Except DirErr Unit
  | [] => .ok ()
  | .ymap sc :: rest => exSeq (checkScript sc) (checkScriptEntries rest)
  | _ :: _ => .error (.invalidSpec "scripts: Must be a Mapping.")

/-- The optional `scripts` field. -/
def checkScriptsField (svc : List (String × YValue)) : Except DirErr Unit :=
  match pyget svc "scripts" with
  | none => .ok ()
  | some (.ylist es) => checkScriptEntries es
  | some _ => .error (.invalidSpec "scripts: Must be a List.")

def SERVICE_KEYS : List String :=
  ["priority", "name", "makejail", "reset_options", "ignore_mtime",
   "options", "arguments", "environment", "start-environment", "oci",
   "volumes", "scripts", "start", "serial"]

/-- Source `__check_service` (lines 99-217), in source order.  The `makejail`
field is only `str()`-coerced and cannot reject, so it contributes no
step. -/
def checkService (svc : List (String × YValue)) : Except DirErr Unit :=
  exSeq (checkAllowedKeys SERVICE_KEYS "service" svc)
    (exSeq (checkIntField svc "priority")
      (exSeq (checkNameField svc)
        (exSeq (checkBoolField svc "reset_options")
          (exSeq (checkBoolField svc "ignore_mtime")
            (exSeq (checkSeq svc "options" true)
              (exSeq (checkSeq svc "arguments" false)
                (exSeq (checkSeq svc "environment" true)
                  (exSeq (checkSeq svc "start-environment" true)
                    (exSeq (checkOci svc)
                      (exSeq (checkSeq svc "volumes" false)
                        (exSeq (checkScriptsField svc)
                          (exSeq (checkSeq svc "start" false)
                            (checkIntField svc "serial")))))))))))))

/-- Entry acceptance stated from the claim text: a mapping with exactly
one key-value pair whose value, when the sequence does not allow nulls,
is not null. -/
def seqEntryGood (allowNone : Bool) : YValue → Bool
  | .ymap [(_, v)] => allowNone || !isNullv v
  | _ => false

/-- Sequence acceptance stated from the claim text. -/
def seqGood (d : YValue) (allowNone : Bool) : Bool :=
  match d with
  | .ylist es => es.all (seqEntryGood allowNone)
  | _ => false

/-- A service holding exactly the seven ordered-sequence fields of the
claim (with `oci` wrapping its `environment`). -/
def svcSeqFields (o a e se oe v stl : List YValue) :
    List (String × YValue) :=
  [("options", .ylist o), ("arguments", .ylist a), ("environment", .ylist e),
   ("start-environment", .ylist se),
   ("oci", .ymap [("environment", .ylist oe)]),
   ("volumes", .ylist v), ("start", .ylist stl)]

theorem exceptOk_exSeq (x y : Except DirErr Unit) :
    exceptOk (exSeq x y) = (exceptOk x && exceptOk y) := by
  cases x <;> simp [exSeq, exceptOk]

theorem exceptOk_fixEntries (name : String) (an : Bool) :
    ∀ es : List YValue,
      exceptOk (fixEntries name an es) = es.all (seqEntryGood an) := by
  intro es
  induction es with
  | nil => rfl
  | cons e rest ih =>
    rcases e with _ | s | n | b | l | m
    case ynull => simp [fixEntries, seqEntryGood, exceptOk]
    case ystr => simp [fixEntries, seqEntryGood, exceptOk]
    case yint => simp [fixEntries, seqEntryGood, exceptOk]
    case ybool => simp [fixEntries, seqEntryGood, exceptOk]
    case ylist => simp [fixEntries, seqEntryGood, exceptOk]
    case ymap =>
      rcases m with _ | ⟨⟨k, v⟩, tl⟩
      · simp [fixEntries, seqEntryGood, exceptOk]
      · rcases tl with _ | ⟨p2, tl2⟩
        · rw [fixEntries]
          cases hres : fixEntries name an rest with
          | ok l2 =>
            have ih2 : rest.all (seqEntryGood an) = true := by
              rw [← ih, hres]; rfl
            cases an with
            | true => simp [seqEntryGood, exceptOk, ih2, hres]
            | false =>
              cases hv : isNullv v with
              | true => simp [hv, seqEntryGood, exceptOk, ih2]
              | false => simp [hv, seqEntryGood, exceptOk, ih2, hres]
          | error e2 =>
            have ih2 : rest.all (seqEntryGood an) = false := by
              rw [← ih, hres]; rfl
            cases an with
            | true => simp [seqEntryGood, exceptOk, ih2, hres]
            | false =>
              cases hv : isNullv v with
              | true => simp [hv, seqEntryGood, exceptOk, ih2]
              | false => simp [hv, seqEntryGood, exceptOk, ih2, hres]
        · simp [fixEntries, seqEntryGood, exceptOk]

end Director

namespace Director

theorem exceptOk_fixNonStrList (d : YValue) (name : String) (an : Bool) :
    exceptOk (fixNonStrList d name an) = seqGood d an := by
  cases d with
  | ylist es => exact exceptOk_fixEntries name an es
  | ynull => rfl
  | ystr s => rfl
  | yint n => rfl
  | ybool b => rfl
  | ymap m => rfl

theorem exceptOk_checkSeq (svc : List (String × YValue)) (key : String)
    (an : Bool) (v : YValue) (h : pyget svc key = some v) :
    exceptOk (checkSeq svc key an) = exceptOk (fixNonStrList v key an) := by
  simp only [checkSeq, h]
  cases fixNonStrList v key an <;> simp [exceptOk]

theorem checkService_seqFields (o a e se oe v stl : List YValue) :
    exceptOk (checkService (svcSeqFields o a e se oe v stl)) =
      (o.all (seqEntryGood true) && a.all (seqEntryGood false) &&
       e.all (seqEntryGood true) && se.all (seqEntryGood true) &&
       oe.all (seqEntryGood false) && v.all (seqEntryGood false) &&
       stl.all (seqEntryGood false)) := by
  have h0 : checkAllowedKeys SERVICE_KEYS "service"
      (svcSeqFields o a e se oe v stl) = .ok () := rfl
  have hpr : checkIntField (svcSeqFields o a e se oe v stl) "priority" =
      .ok () := rfl
  have hnm : checkNameField (svcSeqFields o a e se oe v stl) = .ok () := rfl
  have hro : checkBoolField (svcSeqFields o a e se oe v stl) "reset_options" =
      .ok () := rfl
  have him : checkBoolField (svcSeqFields o a e se oe v stl) "ignore_mtime" =
      .ok () := rfl
  have hsc : checkScriptsField (svcSeqFields o a e se oe v stl) = .ok () := rfl
  have hse2 : checkIntField (svcSeqFields o a e se oe v stl) "serial" =
      .ok () := rfl
  have hoci : checkOci (svcSeqFields o a e se oe v stl) =
      checkSeq [("environment", YValue.ylist oe)] "environment" false := rfl
  have po : pyget (svcSeqFields o a e se oe v stl) "options" =
      some (.ylist o) := rfl
  have pa : pyget (svcSeqFields o a e se oe v stl) "arguments" =
      some (.ylist a) := rfl
  have pe : pyget (svcSeqFields o a e se oe v stl) "environment" =
      some (.ylist e) := rfl
  have pse : pyget (svcSeqFields o a e se oe v stl) "start-environment" =
      some (.ylist se) := rfl
  have poe : pyget [("environment", YValue.ylist oe)] "environment" =
      some (.ylist oe) := rfl
  have pv : pyget (svcSeqFields o a e se oe v stl) "volumes" =
      some (.ylist v) := rfl
  have pst : pyget (svcSeqFields o a e se oe v stl) "start" =
      some (.ylist stl) := rfl
  simp only [checkService, h0, hpr, hnm, hro, him, hsc, hse2, hoci,
    exceptOk_exSeq, exceptOk_checkSeq _ _ true _ po,
    exceptOk_checkSeq _ _ false _ pa, exceptOk_checkSeq _ _ true _ pe,
    exceptOk_checkSeq _ _ true _ pse, exceptOk_checkSeq _ _ false _ poe,
    exceptOk_checkSeq _ _ false _ pv, exceptOk_checkSeq _ _ false _ pst,
    exceptOk_fixNonStrList, seqGood]
  simp [exceptOk, Bool.and_assoc]

theorem fixEntries_error_invalid (name : String) (an : Bool) :
    ∀ (es : List YValue) (e2 : DirErr), fixEntries name an es = .error e2 →
      ∃ msg, e2 = .invalidSpec msg := by
  intro es
  induction es with
  | nil => intro e2 h; exact absurd h (by simp [fixEntries])
  | cons e rest ih =>
    intro e2 h
    rcases e with _ | s | n | b | l | m
    case ynull => simp [fixEntries] at h; exact ⟨_, h.symm⟩
    case ystr => simp [fixEntries] at h; exact ⟨_, h.symm⟩
    case yint => simp [fixEntries] at h; exact ⟨_, h.symm⟩
    case ybool => simp [fixEntries] at h; exact ⟨_, h.symm⟩
    case ylist => simp [fixEntries] at h; exact ⟨_, h.symm⟩
    case ymap =>
      rcases m with _ | ⟨⟨k, v⟩, tl⟩
      · simp [fixEntries] at h; exact ⟨_, h.symm⟩
      · rcases tl with _ | ⟨p2, tl2⟩
        · rw [fixEntries] at h
          split_ifs at h with hn
          · simp only [Except.error.injEq] at h
            exact ⟨_, h.symm⟩
          · cases hres : fixEntries name an rest with
            | ok l2 => rw [hres] at h; exact absurd h (by simp)
            | error e3 =>
              rw [hres] at h
              simp only [Except.error.injEq] at h
              subst h
              exact ih e3 hres
        · simp [fixEntries] at h; exact ⟨_, h.symm⟩

theorem fixNonStrList_error_invalid (d : YValue) (name : String) (an : Bool)
    (e2 : DirErr) (h : fixNonStrList d name an = .error e2) :
    ∃ msg, e2 = .invalidSpec msg := by
  cases d with
  | ylist es => exact fixEntries_error_invalid name an es e2 h
  | ynull => simp [fixNonStrList] at h; exact ⟨_, h.symm⟩
  | ystr s => simp [fixNonStrList] at h; exact ⟨_, h.symm⟩
  | yint n => simp [fixNonStrList] at h; exact ⟨_, h.symm⟩
  | ybool b => simp [fixNonStrList] at h; exact ⟨_, h.symm⟩
  | ymap m => simp [fixNonStrList] at h; exact ⟨_, h.symm⟩

end Director

/-- C8: an ordered-sequence value is accepted exactly when every entry is
a single-pair mapping whose value, where nulls are disallowed, is not
null; `__check_service` passes `allow_none = False` exactly for the
`arguments`, `oci.environment`, `volumes` and `start` sequences and
`allow_none = True` for `options`, `environment` and `start-environment`;
and every rejection raised by `_fix_non_str_list` is an `InvalidSpec`. -/
theorem seq_entry_validation :
    (∀ (d : Director.YValue) (name : String) (an : Bool),
        Director.exceptOk (Director.fixNonStrList d name an) =
          Director.seqGood d an) ∧
    (∀ (o a e se oe v stl : List Director.YValue),
        Director.exceptOk
            (Director.checkService (Director.svcSeqFields o a e se oe v stl)) =
          (o.all (Director.seqEntryGood true) &&
           a.all (Director.seqEntryGood false) &&
           e.all (Director.seqEntryGood true) &&
           se.all (Director.seqEntryGood true) &&
           oe.all (Director.seqEntryGood false) &&
           v.all (Director.seqEntryGood false) &&
           stl.all (Director.seqEntryGood false))) ∧
    (∀ (d : Director.YValue) (name : String) (an : Bool)
        (e2 : Director.DirErr),
        Director.fixNonStrList d name an = .error e2 →
          ∃ msg, e2 = .invalidSpec msg) :=
  ⟨Director.exceptOk_fixNonStrList,
    Director.checkService_seqFields,
    Director.fixNonStrList_error_invalid⟩

/-- C8 witness: a null-valued `arguments` entry is rejected, and the
rejection is an `InvalidSpec`. -/
theorem seq_entry_validation_witness :
    (Director.exceptOk (Director.fixNonStrList
        (.ylist [.ymap [("k", .ynull)]]) "arguments" false) =
      Director.seqGood (.ylist [.ymap [("k", .ynull)]]) false) ∧
    (∃ msg, Director.DirErr.invalidSpec
        "arguments: Value required but not defined." =
      Director.DirErr.invalidSpec msg) :=
  ⟨seq_entry_validation.1 (.ylist [.ymap [("k", .ynull)]]) "arguments" false,
    seq_entry_validation.2.2 (.ylist [.ymap [("k", .ynull)]]) "arguments" false
      (Director.DirErr.invalidSpec
        "arguments: Value required but not defined.") rfl⟩
